import Mathlib

/-!
Verification development for the PicoClaw browser server
(`src/browser-server/server.py`).

We give a shallow embedding of the server's orchestration pipeline:
the UTF-8 byte-budget truncator `_truncate_utf8`, the search-result
merge/dedup loop, the LLM page-selection parser, the parallel scrape
batch, the context assembler, and the `/ask` and `/api/intel`
endpoint flows.  External effects (search backends, the stealth
fetcher, the LLM, the price API, wall-clock time) are passed in as
explicit oracle values, so every definition is a pure, executable
Lean function mirroring the Python source line by line.

Python strings are modelled as Lean `String` (a list of Unicode
scalar values; Python's `str` agrees on all text that can be UTF-8
encoded).  Python `int` is modelled as `Int`, with Python's slice
semantics (including negative slice bounds) made explicit.
-/

namespace Pico

/-! ## UTF-8 encoding and decoding

`text.encode("utf-8")` and `bytes.decode("utf-8", errors="ignore")`
from `_truncate_utf8` (server.py lines 531-537).  Bytes are modelled
as `Nat` (each < 256 for well-formed input). -/

/-- UTF-8 encoding of one Unicode scalar value, as its list of bytes;
mirrors what Python's `str.encode("utf-8")` produces for one character. -/
def utf8EncodeChar (c : Char) : List Nat :=
  if c.toNat < 0x80 then [c.toNat]
  else if c.toNat < 0x800 then [0xC0 + c.toNat / 64, 0x80 + c.toNat % 64]
  else if c.toNat < 0x10000 then
    [0xE0 + c.toNat / 4096, 0x80 + c.toNat / 64 % 64, 0x80 + c.toNat % 64]
  else
    [0xF0 + c.toNat / 262144, 0x80 + c.toNat / 4096 % 64, 0x80 + c.toNat / 64 % 64,
      0x80 + c.toNat % 64]

/-- UTF-8 encoding of a whole string (`text.encode("utf-8")`). -/
def utf8Encode : List Char → List Nat
  | [] => []
  | c :: cs => utf8EncodeChar c ++ utf8Encode cs

/-- The number of bytes of the UTF-8 encoding of a string (`len(text.encode("utf-8"))`). -/
def utf8ByteLength (s : String) : Nat := (utf8Encode s.data).length

/-- A valid UTF-8 continuation byte. -/
abbrev contOk (b : Nat) : Prop := 0x80 ≤ b ∧ b < 0xC0

/-- Valid first continuation byte after a three-byte lead `b`
(excluding overlong encodings and surrogates, as Python's strict
UTF-8 decoder does). -/
abbrev cont3Ok (b b1 : Nat) : Prop :=
  (b = 0xE0 ∧ 0xA0 ≤ b1 ∧ b1 < 0xC0) ∨ (b = 0xED ∧ 0x80 ≤ b1 ∧ b1 < 0xA0) ∨
  (b ≠ 0xE0 ∧ b ≠ 0xED ∧ 0x80 ≤ b1 ∧ b1 < 0xC0)

/-- Valid first continuation byte after a four-byte lead `b`
(excluding overlong encodings and code points above U+10FFFF). -/
abbrev cont4Ok (b b1 : Nat) : Prop :=
  (b = 0xF0 ∧ 0x90 ≤ b1 ∧ b1 < 0xC0) ∨ (b = 0xF4 ∧ 0x80 ≤ b1 ∧ b1 < 0x90) ∨
  (b ≠ 0xF0 ∧ b ≠ 0xF4 ∧ 0x80 ≤ b1 ∧ b1 < 0xC0)

/-- One step of strict UTF-8 decoding: consume one well-formed
sequence (yielding its character) or skip the maximal ill-formed
subpart (yielding `none`), returning the remaining bytes.  A
truncated sequence at the end of the input yields `(none, [])`,
i.e. the incomplete bytes are dropped, as Python's `errors="ignore"`
does. -/
def decodeStep : List Nat → Option Char × List Nat
  | [] => (none, [])
  | b :: rest =>
    if b < 0x80 then (some (Char.ofNat b), rest)
    else if b < 0xC2 then (none, rest)
    else if b < 0xE0 then
      match rest with
      | [] => (none, [])
      | b1 :: rest1 =>
        if contOk b1 then (some (Char.ofNat ((b - 0xC0) * 64 + (b1 - 0x80))), rest1)
        else (none, rest)
    else if b < 0xF0 then
      match rest with
      | [] => (none, [])
      | b1 :: rest1 =>
        if cont3Ok b b1 then
          match rest1 with
          | [] => (none, [])
          | b2 :: rest2 =>
            if contOk b2 then
              (some (Char.ofNat ((b - 0xE0) * 4096 + (b1 - 0x80) * 64 + (b2 - 0x80))), rest2)
            else (none, rest1)
        else (none, rest)
    else if b < 0xF5 then
      match rest with
      | [] => (none, [])
      | b1 :: rest1 =>
        if cont4Ok b b1 then
          match rest1 with
          | [] => (none, [])
          | b2 :: rest2 =>
            if contOk b2 then
              match rest2 with
              | [] => (none, [])
              | b3 :: rest3 =>
                if contOk b3 then
                  (some (Char.ofNat
                      ((b - 0xF0) * 262144 + (b1 - 0x80) * 4096 + (b2 - 0x80) * 64 +
                        (b3 - 0x80))), rest3)
                else (none, rest2)
            else (none, rest1)
        else (none, rest)
    else (none, rest)

/-- Iterate `decodeStep`; the fuel argument only bounds the number of
steps (each step consumes at least one byte, so `l.length` fuel is
always enough). -/
def decodeAux : Nat → List Nat → List Char
  | 0, _ => []
  | _ + 1, [] => []
  | fuel + 1, b :: rest =>
    match decodeStep (b :: rest) with
    | (some c, remaining) => c :: decodeAux fuel remaining
    | (none, remaining) => decodeAux fuel remaining

/-- Strict UTF-8 decoding with Python's `errors="ignore"` policy
(`bytes.decode("utf-8", errors="ignore")`). -/
def utf8DecodeIgnore (l : List Nat) : List Char := decodeAux l.length l

/-- Python slice `l[:m]` on a byte string, for an arbitrary integer
bound `m`: a nonnegative bound takes the first `m` elements, a
negative bound drops the last `-m` elements. -/
def pySliceTo (m : Int) (l : List Nat) : List Nat :=
  if m < 0 then l.take (l.length - (-m).toNat) else l.take m.toNat

/-- `_truncate_utf8` (server.py lines 531-537): truncate `text` so that
its UTF-8 encoding fits in `max_bytes` bytes.

```
encoded = text.encode("utf-8")
if len(encoded) <= max_bytes: return text
truncated = encoded[:max_bytes]
return truncated.decode("utf-8", errors="ignore")
``` -/
def truncate_utf8 (text : String) (max_bytes : Int) : String :=
  let encoded := utf8Encode text.data
  if (encoded.length : Int) ≤ max_bytes then text
  else ⟨utf8DecodeIgnore (pySliceTo max_bytes encoded)⟩

/-- The longest prefix of a character list whose UTF-8 encoding fits
in `n` bytes. -/
def takeBytes (n : Nat) : List Char → List Char
  | [] => []
  | c :: cs =>
    if (utf8EncodeChar c).length ≤ n then c :: takeBytes (n - (utf8EncodeChar c).length) cs
    else []

/-! ## Search results and the merge/dedup loop

One record type models both backends' dicts: DuckDuckGo results carry
`title/url/snippet/source` (server.py line 110), Google News results
carry `title/url/date/source` (line 157); a missing key reads as `""`
(Python's `r.get(key, "")`). -/

structure SearchResult where
  title : String
  url : String
  snippet : String
  date : String
  source : String
deriving DecidableEq

def blankResult : SearchResult := ⟨"", "", "", "", ""⟩

/-! Python string primitives, modelled over the character list of a
`String` so that every definition evaluates by kernel reduction. -/

/-- Python's `s.startswith(pre)`. -/
def strStartsWith (s pre : String) : Bool := pre.data.isPrefixOf s.data

/-- Substring membership, Python's `needle in hay`. -/
def strContains (hay needle : String) : Bool :=
  (List.range (hay.data.length + 1)).any fun i => needle.data.isPrefixOf (hay.data.drop i)

/-- Python's `s[:n]` on a string (a character slice). -/
def strTake (s : String) (n : Nat) : String := ⟨s.data.take n⟩

/-- Python's `s.strip()`: remove leading and trailing whitespace. -/
def pyStrip (s : String) : String :=
  ⟨((s.data.dropWhile Char.isWhitespace).reverse.dropWhile Char.isWhitespace).reverse⟩

/-- Python's `s.lower()` (ASCII case folding). -/
def pyLower (s : String) : String := ⟨s.data.map Char.toLower⟩

/-- Python's `url.split("/")` on the character list. -/
def splitOnSlash : List Char → List (List Char)
  | [] => [[]]
  | c :: cs =>
    if c = '/' then [] :: splitOnSlash cs
    else
      match splitOnSlash cs with
      | [] => [[c]]
      | p :: ps => (c :: p) :: ps

/-- `url.split("/")[2] if len(url.split("/")) > 2 else url`
(the "domain" key used for dedup, server.py lines 285, 467, 519). -/
def urlDomain (url : String) : String :=
  ((splitOnSlash url.data).map fun l => (⟨l⟩ : String)).getD 2 url

/-- The merge loop keeps an entry iff `url` is nonempty and starts with
`"http"` (`if not url or not url.startswith("http"): continue`). -/
def validUrl (url : String) : Bool := !(url == "") && strStartsWith url "http"

/-- The merge/dedup loop body (server.py lines 279-288 and 461-470),
with the `seen_domains` set carried explicitly. -/
def mergeAux (seen : List String) : List SearchResult → List SearchResult
  | [] => []
  | r :: rs =>
    if validUrl r.url then
      if urlDomain r.url ∈ seen then mergeAux seen rs
      else r :: mergeAux (urlDomain r.url :: seen) rs
    else mergeAux seen rs

/-- The `seen_domains` set after running the merge loop over a list. -/
def collectDomains (seen : List String) : List SearchResult → List String
  | [] => seen
  | r :: rs =>
    if validUrl r.url then
      if urlDomain r.url ∈ seen then collectDomains seen rs
      else collectDomains (urlDomain r.url :: seen) rs
    else collectDomains seen rs

/-- Merge and deduplicate by domain: the loop `for r in ddg_results +
news_results: ...` of `/ask` and `/api/intel` search mode. -/
def mergeResults (a b : List SearchResult) : List SearchResult := mergeAux [] (a ++ b)

/-! ## LLM page-selection parsing (server.py lines 311-321 and 486-493) -/

/-- Base code points of the decimal-digit ranges of Unicode 15.0
(general category Nd).  Every Nd range is exactly ten code points
`b .. b+9`, carrying the digit values `0 .. 9`.  Python's `\d` (on
`str`, without `re.ASCII`) matches exactly the Nd characters, and
`int()` reads each one as its digit value. -/
def ndBases : List Nat :=
  [0x30, 0x660, 0x6F0, 0x7C0, 0x966, 0x9E6, 0xA66, 0xAE6, 0xB66, 0xBE6, 0xC66, 0xCE6,
    0xD66, 0xDE6, 0xE50, 0xED0, 0xF20, 0x1040, 0x1090, 0x17E0, 0x1810, 0x1946, 0x19D0,
    0x1A80, 0x1A90, 0x1B50, 0x1BB0, 0x1C40, 0x1C50, 0xA620, 0xA8D0, 0xA900, 0xA9D0,
    0xA9F0, 0xAA50, 0xABF0, 0xFF10, 0x104A0, 0x10D30, 0x11066, 0x110F0, 0x11136,
    0x111D0, 0x112F0, 0x11450, 0x114D0, 0x11650, 0x116C0, 0x11730, 0x118E0, 0x11950,
    0x11C50, 0x11D50, 0x11DA0, 0x11F50, 0x16A60, 0x16AC0, 0x16B50, 0x1D7CE, 0x1D7D8,
    0x1D7E2, 0x1D7EC, 0x1D7F6, 0x1E140, 0x1E2F0, 0x1E4F0, 0x1E950, 0x1FBF0]

/-- A character matched by Python's `\d`: a Unicode decimal digit
(category Nd), e.g. `'7'`, `'٧'` (Arabic-Indic) or `'７'` (fullwidth). -/
def isPyDigit (c : Char) : Bool := ndBases.any fun b => b ≤ c.toNat && c.toNat < b + 10

/-- The digit value Python's `int()` assigns to a decimal-digit
character (0 for non-digits, which never reach it). -/
def pyDigitVal (c : Char) : Nat :=
  match ndBases.find? (fun b => b ≤ c.toNat && c.toNat < b + 10) with
  | some b => c.toNat - b
  | none => 0

/-- Maximal runs of decimal digits, `re.findall(r"\d+", reply)`;
accumulator-based scanner. -/
def digitRunsAux : List Char → List Char → List (List Char)
  | cur, [] => if cur = [] then [] else [cur.reverse]
  | cur, ch :: cs =>
    if isPyDigit ch then digitRunsAux (ch :: cur) cs
    else if cur = [] then digitRunsAux [] cs
    else cur.reverse :: digitRunsAux [] cs

def digitRuns (s : List Char) : List (List Char) := digitRunsAux [] s

/-- `int(tok)` for a token of decimal digits. -/
def digitsToNat (l : List Char) : Nat := l.foldl (fun a ch => a * 10 + pyDigitVal ch) 0

/-- Parse the LLM's page-pick reply: collect integer tokens, keep those
in `[0, n)` (tokens are nonnegative, so only `idx < n` can fail), fall
back to the first `min(4, n)` indices if none parsed, cap at 5.
Identical code in `/ask` (lines 311-321) and `/api/intel` search mode
(lines 486-493). -/
def parsePicked (reply : String) (n : Nat) : List Nat :=
  (if ((digitRuns reply.data).map digitsToNat).filter (fun i => i < n) = [] then
    List.range (min 4 n)
  else ((digitRuns reply.data).map digitsToNat).filter (fun i => i < n)).take 5

/-! ## Scraping (server.py lines 116-127) -/

/-- `_scrape_url` (lines 116-127), with `StealthyFetcher.fetch` + the
two css text queries passed in as an oracle: `.error e` is a raised
exception (its `str`), `.ok (mainTexts, bodyTexts)` the text nodes
returned by the content-selector query and the `body::text` fallback
query. -/
def scrape_url (fetch : String → Except String (List String × List String))
    (url : String) : String :=
  match fetch url with
  | .error e => "Error scraping " ++ url ++ ": " ++ e
  | .ok (mainTexts, bodyTexts) =>
    let texts := if mainTexts = [] then bodyTexts else mainTexts
    let cleaned := (texts.map pyStrip).filter fun t => !(t == "") && decide (5 < t.length)
    strTake (String.intercalate "\n" cleaned) 6000

/-- `asyncio.gather(*[scrape_url(u) for u in urls], return_exceptions=True)`:
one outcome per input URL, in input order.  `scrape_url` itself never
raises (every fault is converted to an `"Error scraping ..."` string),
so the batch is total. -/
def scrapeAll (fetch : String → Except String (List String × List String))
    (urls : List String) : List String := urls.map (scrape_url fetch)

/-- A per-URL entry of the `pages` list returned by `asyncio.gather(...,
return_exceptions=True)` in the pipelines: either the string returned
by `scrape_url` or a captured exception object. -/
inductive PageOutcome where
  | text (s : String)
  | raised (e : String)
deriving DecidableEq

/-- The per-page inclusion test of both context-assembly loops:
`isinstance(page_text, str) and not page_text.startswith("Error") and
len(page_text) > 50`, split into its string part... -/
def textUsable (t : String) : Bool := !strStartsWith t "Error" && decide (50 < t.length)

/-- ...and the full test on a gather outcome. -/
def pageUsable : PageOutcome → Bool
  | .text t => textUsable t
  | .raised _ => false

/-! ## Context assembly (server.py lines 330-339 and 499-508) -/

/-- `f"- {r.get('title','')}: {r.get('snippet','')}"`, used by both
endpoints for the snippet digest. -/
def digestLine (r : SearchResult) : String := "- " ++ r.title ++ ": " ++ r.snippet

def digest (rs : List SearchResult) : String := String.intercalate "\n" (rs.map digestLine)

/-- `/ask` scraped block: `f"\n--- [{title}] {url} ---\n{page_text[:3000]}\n"`. -/
def askBlock (title url text : String) : String :=
  "\n--- [" ++ title ++ "] " ++ url ++ " ---\n" ++ strTake text 3000 ++ "\n"

/-- `/api/intel` scraped block: `f"\n[{title}] ({url})\n{text[:2500]}\n"`. -/
def intelBlock (title url text : String) : String :=
  "\n[" ++ title ++ "] (" ++ url ++ ")\n" ++ strTake text 2500 ++ "\n"

/-- The `scraped_content` accumulation loop of `/ask` (lines 330-333):
items are `(title, url, outcome)` triples in selection order. -/
def askScraped : List (String × String × PageOutcome) → String
  | [] => ""
  | (title, url, PageOutcome.text t) :: rest =>
    (if textUsable t then askBlock title url t else "") ++ askScraped rest
  | (_, _, PageOutcome.raised _) :: rest => askScraped rest

/-- The `scraped` accumulation loop of `/api/intel` search mode (lines 499-502). -/
def intelScraped : List (String × String × PageOutcome) → String
  | [] => ""
  | (title, url, PageOutcome.text t) :: rest =>
    (if textUsable t then intelBlock title url t else "") ++ intelScraped rest
  | (_, _, PageOutcome.raised _) :: rest => intelScraped rest

/-- Concatenation of one block per item (the block of a raised outcome
is empty; used only on lists of usable items). -/
def blocksConcat (block : String → String → String → String) :
    List (String × String × PageOutcome) → String
  | [] => ""
  | x :: rest =>
    (match x.2.2 with
      | PageOutcome.text t => block x.1 x.2.1 t
      | PageOutcome.raised _ => "") ++ blocksConcat block rest

/-- Specification-side form of the `/ask` scraped section, following
the spec's words: one labeled block per *usable* outcome (not a
failure marker, longer than 50 characters), in order, each with its
text truncated to 3000 characters. -/
def askScrapedSpec (items : List (String × String × PageOutcome)) : String :=
  blocksConcat askBlock (items.filter fun x => pageUsable x.2.2)

/-- Specification-side form of the `/api/intel` scraped section
(truncation length 2500). -/
def intelScrapedSpec (items : List (String × String × PageOutcome)) : String :=
  blocksConcat intelBlock (items.filter fun x => pageUsable x.2.2)

/-- The `/ask` context (lines 336-339): price line, then snippet digest
of the first 10 merged candidates, then the scraped blocks (appended
only when nonempty, with their header). -/
def askContext (priceInfo : String) (merged : List SearchResult)
    (items : List (String × String × PageOutcome)) : String :=
  let scraped := askScraped items
  let ctx := priceInfo ++ "Search results summary:\n" ++ digest (merged.take 10)
  if scraped = "" then ctx else ctx ++ "\n\nScraped page content:" ++ scraped

/-- The `/api/intel` search-mode `compress_input` (lines 505-508). -/
def intelContext (query : String) (merged : List SearchResult)
    (items : List (String × String × PageOutcome)) : String :=
  let scraped := intelScraped items
  let ci := "Question: " ++ query ++ "\n\nSearch headlines:\n" ++ digest (merged.take 10)
  if scraped = "" then ci else ci ++ "\n\nScraped pages:" ++ scraped

/-! ## Crypto-price heuristics (server.py lines 260-271 and 442-453) -/

/-- Result of `await get_crypto_price(coin)` as seen by the callers:
`.ok p chg` is a response containing `price_usd` (with the two float
fields already rendered through their `format` specs, floats being
external to this embedding), `.notFound` a response without
`price_usd`, `.exn` a raised exception. -/
inductive PriceResult where
  | ok (priceStr chgStr : String)
  | notFound
  | exn (e : String)
deriving DecidableEq

/-- Coin choice shared by `/ask` (lines 263-265) and `/api/intel`
search mode (lines 445-447). -/
def chooseCoin (qLower : String) : String :=
  if strContains qLower "eth" || strContains qLower "ethereum" then "ethereum"
  else if strContains qLower "sol" || strContains qLower "solana" then "solana"
  else "bitcoin"

def askPriceWords : List String :=
  ["price", "btc", "bitcoin", "eth", "ethereum", "sol", "solana", "crypto"]

def intelPriceWords : List String :=
  ["price", "btc", "bitcoin", "eth", "ethereum", "sol", "solana"]

/-- `/ask` step 0 (lines 260-271): the `price_info` string; an
exception or a missing `price_usd` key leaves it empty. -/
def askPriceInfo (qLower : String) (pr : PriceResult) : String :=
  if askPriceWords.any (fun w => strContains qLower w) then
    match pr with
    | .ok p chg =>
      "LIVE DATA: " ++ chooseCoin qLower ++ " price is $" ++ p ++ " USD (24h change: " ++
        chg ++ "%)\n\n"
    | .notFound => ""
    | .exn _ => ""
  else ""

/-- `/api/intel` search-mode step 0 (lines 442-453): the `price_prefix`. -/
def intelPriceLine (qLower : String) (pr : PriceResult) : String :=
  if intelPriceWords.any (fun w => strContains qLower w) then
    match pr with
    | .ok p chg => chooseCoin qLower ++ " $" ++ p ++ " (" ++ chg ++ "% 24h) (coingecko) | "
    | .notFound => ""
    | .exn _ => ""
  else ""

/-! ## The `/ask` pipeline (server.py lines 253-356)

The external effects — price API, the two search backends, the page
picker LLM, the scrape batch, the answer LLM — are supplied as oracle
values/functions; on a successful request the endpoint is a pure
function of them.  (Failures of the essential calls raise and are
turned into a 500 by the outer `except`; those paths produce no
`answer`/`sources` payload and are not modelled here.) -/

structure AskOracles where
  price : PriceResult
  ddg : List SearchResult
  news : List SearchResult
  pick : String → String
  scrape : String → PageOutcome
  answer : String → String

/-- The JSON payload of a non-500 `/ask` response: either the
no-results answer (`sources: []`) or the full answer.  (`elapsed` is
wall-clock time, omitted.) -/
inductive AskResponse where
  | noResults (answer : String)
  | ok (answer : String) (sources : List String) (scraped_count : Nat)
deriving DecidableEq

def askMerged (o : AskOracles) : List SearchResult := mergeResults o.ddg o.news

/-- One line of the numbered candidate listing (line 297). -/
def askListingLine (i : Nat) (r : SearchResult) : String :=
  "[" ++ toString i ++ "] " ++ r.title ++ " | " ++ r.url ++
    (if r.snippet ≠ "" then " | " ++ r.snippet else "") ++
    (if r.date ≠ "" then " | " ++ r.date else "")

def askListing (rs : List SearchResult) : String :=
  String.intercalate "\n" (rs.enum.map fun p => askListingLine p.1 p.2)

/-- `pick_prompt` (lines 301-308). -/
def askPickPrompt (q : String) (merged : List SearchResult) : String :=
  "You are a research assistant. The user asked: \"" ++ q ++ "\"\n\n" ++
    "Here are search results:\n" ++ askListing merged ++ "\n\n" ++
    "Pick the 3-5 BEST URLs to scrape for answering the question. " ++
    "Choose pages most likely to contain actual data, facts, and details (not homepages or paywalled sites). " ++
    "Reply with ONLY the numbers, comma-separated. Example: 0,2,4,7\n" ++
    "Numbers only, nothing else."

/-- `picked_indices` (lines 311-321). -/
def askPicked (q : String) (o : AskOracles) : List Nat :=
  parsePicked (o.pick (askPickPrompt q (askMerged o))) (askMerged o).length

/-- `scrape_urls = [all_results[i]["url"] for i in picked_indices]` (line 323). -/
def askScrapeUrls (q : String) (o : AskOracles) : List String :=
  (askPicked q o).map fun i => ((askMerged o).getD i blankResult).url

/-- The `(title, url, outcome)` triples consumed by the scraped-content
loop: `pages[i]` paired with `all_results[picked_indices[i]]` and
`scrape_urls[i]` (lines 326-333). -/
def askItems (q : String) (o : AskOracles) : List (String × String × PageOutcome) :=
  (askPicked q o).map fun i =>
    (((askMerged o).getD i blankResult).title, ((askMerged o).getD i blankResult).url,
      o.scrape ((askMerged o).getD i blankResult).url)

/-- The final synthesis prompt (lines 341-346). -/
def askAnswerPrompt (q ctx : String) : String :=
  "Answer this question using ALL the data below. Be thorough and factual. " ++
    "Include specific facts, numbers, names, dates from the scraped content. " ++
    "Cite which source each fact came from. " ++
    "If this is a news query, summarize each major story with key details.\n\n" ++
    "Question: " ++ q ++ "\n\n" ++ ctx

/-- The `/ask` endpoint (lines 253-353), successful paths. -/
def ask (q : String) (o : AskOracles) : AskResponse :=
  if askMerged o = [] then
    .noResults (if askPriceInfo (pyLower q) o.price ≠ "" then
        askPriceInfo (pyLower q) o.price ++ "No search results found for: " ++ q
      else "No search results found for: " ++ q)
  else
    .ok (o.answer (askAnswerPrompt q
        (askContext (askPriceInfo (pyLower q) o.price) (askMerged o) (askItems q o))))
      (askScrapeUrls q o) (askScrapeUrls q o).length

/-! ## The `/api/intel` endpoint (server.py lines 385-528)

Modelled after auth and JSON parsing succeed (the 401/'invalid json'
400 paths carry no pipeline logic). -/

structure IntelBody where
  query : Option String
  mode : Option String
  url : Option String
  max_bytes : Option Int

structure IntelOracles where
  price : PriceResult
  ddg : List SearchResult
  news : List SearchResult
  pick : String → String
  scrape : String → PageOutcome
  llmFacts : String → String
  now : Nat

/-- An `/api/intel` JSON response: `.ok f s t` is
`{"ok": True, "f": facts, "s": sources, "t": timestamp}`, `.err e code`
is `{"ok": False, "e": reason}` with the given HTTP status (the
`scrape failed` response is returned without an explicit status, so it
is an `.err` with code 200). -/
inductive IntelResponse where
  | ok (f : String) (s : List String) (t : Nat)
  | err (e : String) (code : Nat)
deriving DecidableEq

/-- `query = body.get("query", "").strip()` (line 397). -/
def intelEffQuery (body : IntelBody) : String := pyStrip (body.query.getD "")

/-- `mode = body.get("mode", "search")` (line 398). -/
def intelEffMode (body : IntelBody) : String := body.mode.getD "search"

/-- `max_bytes = min(body.get("max_bytes", 4000), 6000)` (line 400). -/
def intelMaxBytes (body : IntelBody) : Int := min (body.max_bytes.getD 4000) 6000

/-- `mode == "price"` branch (lines 408-421).  Note: no truncation to
`max_bytes` anywhere in this branch. -/
def intelPriceMode (query : String) (o : IntelOracles) : IntelResponse :=
  let coin0 := if query = "" then "bitcoin" else query
  let qLower := pyLower coin0
  let coin :=
    if strContains qLower "eth" then "ethereum"
    else if strContains qLower "sol" then "solana"
    else if strContains qLower "btc" || strContains qLower "bit" then "bitcoin"
    else coin0
  match o.price with
  | .ok p chg =>
    .ok (coin ++ " $" ++ p ++ " (" ++ chg ++ "% 24h) (coingecko)") ["coingecko.com"] o.now
  | .notFound => .ok ("Price not found for: " ++ coin) ["coingecko.com"] o.now
  | .exn e => .err (strTake e 200) 500

/-- The browse-mode fact-extraction prompt (line 431). -/
def intelBrowsePrompt (url text : String) (mb : Int) : String :=
  "Extract key facts from this page (" ++ url ++ "):\n\n" ++ strTake text 5000 ++
    "\n\nBudget: " ++ toString mb ++ " chars."

/-- `mode == "browse"` branch (lines 423-438). -/
def intelBrowseMode (url : String) (mb : Int) (o : IntelOracles) : IntelResponse :=
  if url = "" then .err "missing url" 400
  else
    match o.scrape url with
    | .raised e => .err (strTake e 200) 500
    | .text text =>
      if text = "" ∨ strStartsWith text "Error" then
        .err ("scrape failed: " ++ strTake text 200) 200
      else
        .ok (truncate_utf8 (o.llmFacts (intelBrowsePrompt url text mb)) mb)
          [urlDomain url] o.now

def intelListing (rs : List SearchResult) : String :=
  String.intercalate "\n"
    (rs.enum.map fun p => "[" ++ toString p.1 ++ "] " ++ p.2.title ++ " | " ++ p.2.url)

/-- The search-mode pick prompt (lines 480-485). -/
def intelPickPrompt (query : String) (merged : List SearchResult) : String :=
  "User asked: \"" ++ query ++ "\"\n\nSearch results:\n" ++ intelListing merged ++
    "\n\nPick 3-5 best URLs for real data (not homepages/paywalls). Reply numbers only, comma-separated."

def intelMerged (o : IntelOracles) : List SearchResult := mergeResults o.ddg o.news

/-- `picked` (lines 486-493). -/
def intelPicked (query : String) (o : IntelOracles) : List Nat :=
  parsePicked (o.pick (intelPickPrompt query (intelMerged o))) (intelMerged o).length

/-- `scrape_urls` (line 495). -/
def intelScrapeUrls (query : String) (o : IntelOracles) : List String :=
  (intelPicked query o).map fun i => ((intelMerged o).getD i blankResult).url

def intelItems (query : String) (o : IntelOracles) : List (String × String × PageOutcome) :=
  (intelPicked query o).map fun i =>
    (((intelMerged o).getD i blankResult).title, ((intelMerged o).getD i blankResult).url,
      o.scrape ((intelMerged o).getD i blankResult).url)

/-- The search-mode compression prompt (lines 510-514). -/
def intelFactsPrompt (ctx : String) (mb : Int) : String :=
  ctx ++ "\n\nExtract ONLY facts that answer the question. " ++
    "Skip website UI, navigation, cookie/consent text, loading messages, disclaimers. " ++
    "Budget: " ++ toString mb ++ " chars."

/-- `mode == "search"` branch (the `else` catch-all, lines 441-524). -/
def intelSearchMode (query : String) (mb : Int) (o : IntelOracles) : IntelResponse :=
  if intelMerged o = [] then .ok ("No results found for: " ++ query) [] o.now
  else
    .ok (truncate_utf8 (intelPriceLine (pyLower query) o.price ++
          o.llmFacts (intelFactsPrompt (intelContext query (intelMerged o) (intelItems query o)) mb))
        mb)
      (if intelPriceLine (pyLower query) o.price ≠ "" then
        "coingecko.com" :: (intelScrapeUrls query o).map urlDomain
       else (intelScrapeUrls query o).map urlDomain)
      o.now

/-- The `/api/intel` endpoint after auth and JSON parsing (lines 397-528). -/
def intel (body : IntelBody) (o : IntelOracles) : IntelResponse :=
  if intelEffQuery body = "" ∧ intelEffMode body ≠ "price" then .err "missing query" 400
  else if intelEffMode body = "price" then intelPriceMode (intelEffQuery body) o
  else if intelEffMode body = "browse" then
    intelBrowseMode (body.url.getD "") (intelMaxBytes body) o
  else intelSearchMode (intelEffQuery body) (intelMaxBytes body) o


/-! ## Lemmas -/

/-! ### Correctness of the encoder/decoder pair -/

theorem charToNatOfNat (n : Nat) (h : n.isValidChar) : (Char.ofNat n).toNat = n := by
  simp [Char.ofNat, h, Char.ofNatAux, Char.toNat, UInt32.toNat, BitVec.toNat_ofNatLt]

theorem charOfNatToNat (c : Char) : Char.ofNat c.toNat = c := by
  have h : (Char.ofNat c.toNat).toNat = c.toNat := charToNatOfNat _ c.valid
  exact Char.ext (UInt32.ext h)

theorem charValidRange (c : Char) :
    c.toNat < 55296 ∨ 57343 < c.toNat ∧ c.toNat < 1114112 := c.valid

theorem decodeStep_rem_le (b : Nat) (rest : List Nat) :
    (decodeStep (b :: rest)).2.length ≤ rest.length := by
  unfold decodeStep
  repeat' split
  all_goals simp_all
  all_goals omega

theorem decodeAux_fuel_irrel (f1 : Nat) :
    ∀ (f2 : Nat) (l : List Nat), l.length ≤ f1 → l.length ≤ f2 →
      decodeAux f1 l = decodeAux f2 l := by
  induction f1 with
  | zero =>
    intro f2 l h1 _
    have : l = [] := List.length_eq_zero.mp (Nat.le_zero.mp h1)
    subst this
    cases f2 <;> rfl
  | succ n ih =>
    intro f2 l h1 h2
    cases l with
    | nil => cases f2 <;> rfl
    | cons b rest =>
      cases f2 with
      | zero => simp at h2
      | succ m =>
        have hrem := decodeStep_rem_le b rest
        rcases hstep : decodeStep (b :: rest) with ⟨oc, rem⟩
        rw [hstep] at hrem
        simp only [List.length_cons] at h1 h2
        simp only at hrem
        have hrec := ih m rem (by omega) (by omega)
        rw [decodeAux, decodeAux, hstep]
        cases oc <;> simp [hrec]

theorem decode_step_some {l : List Nat} {c : Char} {rem : List Nat} (h : l ≠ [])
    (hstep : decodeStep l = (some c, rem)) :
    utf8DecodeIgnore l = c :: utf8DecodeIgnore rem := by
  cases l with
  | nil => exact absurd rfl h
  | cons b rest =>
    have hrem := decodeStep_rem_le b rest
    rw [hstep] at hrem
    simp only at hrem
    unfold utf8DecodeIgnore
    rw [List.length_cons, decodeAux, hstep]
    simp [decodeAux_fuel_irrel rest.length rem.length rem hrem (Nat.le_refl _)]

theorem decode_step_none {l : List Nat} {rem : List Nat} (h : l ≠ [])
    (hstep : decodeStep l = (none, rem)) :
    utf8DecodeIgnore l = utf8DecodeIgnore rem := by
  cases l with
  | nil => exact absurd rfl h
  | cons b rest =>
    have hrem := decodeStep_rem_le b rest
    rw [hstep] at hrem
    simp only at hrem
    unfold utf8DecodeIgnore
    rw [List.length_cons, decodeAux, hstep]
    simp [decodeAux_fuel_irrel rest.length rem.length rem hrem (Nat.le_refl _)]

theorem utf8EncodeChar_ne_nil (c : Char) : utf8EncodeChar c ≠ [] := by
  unfold utf8EncodeChar
  split_ifs <;> simp

theorem utf8EncodeChar_length_le (c : Char) : (utf8EncodeChar c).length ≤ 4 := by
  unfold utf8EncodeChar
  split_ifs <;> simp

theorem decodeStep_encode (c : Char) (rest : List Nat) :
    decodeStep (utf8EncodeChar c ++ rest) = (some c, rest) := by
  have hv := charValidRange c
  have hofnat := charOfNatToNat c
  unfold utf8EncodeChar
  split_ifs with h1 h2 h3
  · simp only [List.singleton_append, decodeStep]
    rw [if_pos h1, hofnat]
  · simp only [List.cons_append, List.nil_append, decodeStep]
    rw [if_neg (by omega), if_neg (by omega), if_pos (by omega)]
    rw [if_pos (by omega : contOk (0x80 + c.toNat % 64))]
    have hval : (0xC0 + c.toNat / 64 - 0xC0) * 64 + (0x80 + c.toNat % 64 - 0x80) = c.toNat := by
      omega
    rw [hval, hofnat]
  · simp only [List.cons_append, List.nil_append, decodeStep]
    rw [if_neg (by omega), if_neg (by omega), if_neg (by omega), if_pos (by omega)]
    rw [if_pos (by omega : cont3Ok (0xE0 + c.toNat / 4096) (0x80 + c.toNat / 64 % 64))]
    rw [if_pos (by omega : contOk (0x80 + c.toNat % 64))]
    have hval : (0xE0 + c.toNat / 4096 - 0xE0) * 4096 + (0x80 + c.toNat / 64 % 64 - 0x80) * 64 +
        (0x80 + c.toNat % 64 - 0x80) = c.toNat := by omega
    rw [hval, hofnat]
  · simp only [List.cons_append, List.nil_append, decodeStep]
    rw [if_neg (by omega), if_neg (by omega), if_neg (by omega), if_neg (by omega),
      if_pos (by omega)]
    rw [if_pos (by omega : cont4Ok (0xF0 + c.toNat / 262144) (0x80 + c.toNat / 4096 % 64))]
    rw [if_pos (by omega : contOk (0x80 + c.toNat / 64 % 64))]
    rw [if_pos (by omega : contOk (0x80 + c.toNat % 64))]
    have hval : (0xF0 + c.toNat / 262144 - 0xF0) * 262144 +
        (0x80 + c.toNat / 4096 % 64 - 0x80) * 4096 + (0x80 + c.toNat / 64 % 64 - 0x80) * 64 +
        (0x80 + c.toNat % 64 - 0x80) = c.toNat := by omega
    rw [hval, hofnat]

theorem decodeStep_encode_take (c : Char) (k : Nat) (hk : k < (utf8EncodeChar c).length)
    (hk0 : 0 < k) : decodeStep ((utf8EncodeChar c).take k) = (none, []) := by
  have hv := charValidRange c
  unfold utf8EncodeChar at hk ⊢
  split_ifs at hk ⊢ with h1 h2 h3
  · simp at hk; omega
  · simp only [List.length_cons, List.length_nil] at hk
    interval_cases k
    simp only [List.take_succ_cons, List.take_zero, decodeStep]
    rw [if_neg (by omega), if_neg (by omega), if_pos (by omega)]
  · simp only [List.length_cons, List.length_nil] at hk
    interval_cases k
    · simp only [List.take_succ_cons, List.take_zero, decodeStep]
      rw [if_neg (by omega), if_neg (by omega), if_neg (by omega), if_pos (by omega)]
    · simp only [List.take_succ_cons, List.take_zero, decodeStep]
      rw [if_neg (by omega), if_neg (by omega), if_neg (by omega), if_pos (by omega)]
      rw [if_pos (by omega : cont3Ok (0xE0 + c.toNat / 4096) (0x80 + c.toNat / 64 % 64))]
  · simp only [List.length_cons, List.length_nil] at hk
    interval_cases k
    · simp only [List.take_succ_cons, List.take_zero, decodeStep]
      rw [if_neg (by omega), if_neg (by omega), if_neg (by omega), if_neg (by omega),
        if_pos (by omega)]
    · simp only [List.take_succ_cons, List.take_zero, decodeStep]
      rw [if_neg (by omega), if_neg (by omega), if_neg (by omega), if_neg (by omega),
        if_pos (by omega)]
      rw [if_pos (by omega : cont4Ok (0xF0 + c.toNat / 262144) (0x80 + c.toNat / 4096 % 64))]
    · simp only [List.take_succ_cons, List.take_zero, decodeStep]
      rw [if_neg (by omega), if_neg (by omega), if_neg (by omega), if_neg (by omega),
        if_pos (by omega)]
      rw [if_pos (by omega : cont4Ok (0xF0 + c.toNat / 262144) (0x80 + c.toNat / 4096 % 64))]
      rw [if_pos (by omega : contOk (0x80 + c.toNat / 64 % 64))]

theorem decode_encode_cons (c : Char) (rest : List Nat) :
    utf8DecodeIgnore (utf8EncodeChar c ++ rest) = c :: utf8DecodeIgnore rest := by
  have hne : utf8EncodeChar c ++ rest ≠ [] := by
    simp [utf8EncodeChar_ne_nil c]
  exact decode_step_some hne (decodeStep_encode c rest)

theorem decode_encode_take (c : Char) (k : Nat) (hk : k < (utf8EncodeChar c).length) :
    utf8DecodeIgnore ((utf8EncodeChar c).take k) = [] := by
  rcases Nat.eq_zero_or_pos k with h0 | hpos
  · subst h0; rfl
  · have hstep := decodeStep_encode_take c k hk hpos
    have hne : (utf8EncodeChar c).take k ≠ [] := by
      have hlen : 0 < ((utf8EncodeChar c).take k).length := by
        rw [List.length_take]
        omega
      intro h
      rw [h] at hlen
      simp at hlen
    rw [decode_step_none hne hstep]
    rfl

theorem decode_take_encode (s : List Char) : ∀ n : Nat,
    utf8DecodeIgnore ((utf8Encode s).take n) = takeBytes n s := by
  induction s with
  | nil => intro n; simp [utf8Encode, takeBytes]; rfl
  | cons c cs ih =>
    intro n
    rw [utf8Encode, takeBytes, List.take_append_eq_append_take]
    by_cases h : (utf8EncodeChar c).length ≤ n
    · rw [if_pos h, List.take_of_length_le h, decode_encode_cons, ih]
    · rw [if_neg h]
      have h0 : n - (utf8EncodeChar c).length = 0 := by omega
      rw [h0, List.take_zero, List.append_nil]
      exact decode_encode_take c n (by omega)

theorem takeBytes_append (n : Nat) (s : List Char) :
    ∃ t : List Char, takeBytes n s ++ t = s := by
  induction s generalizing n with
  | nil => exact ⟨[], rfl⟩
  | cons c cs ih =>
    rw [takeBytes]
    by_cases h : (utf8EncodeChar c).length ≤ n
    · rw [if_pos h]
      obtain ⟨t, ht⟩ := ih (n - (utf8EncodeChar c).length)
      exact ⟨t, by rw [List.cons_append, ht]⟩
    · rw [if_neg h]
      exact ⟨c :: cs, rfl⟩

theorem takeBytes_byteLen (s : List Char) : ∀ n : Nat,
    (utf8Encode (takeBytes n s)).length ≤ n := by
  induction s with
  | nil => intro n; simp [takeBytes, utf8Encode]
  | cons c cs ih =>
    intro n
    rw [takeBytes]
    by_cases h : (utf8EncodeChar c).length ≤ n
    · rw [if_pos h, utf8Encode, List.length_append]
      have := ih (n - (utf8EncodeChar c).length)
      omega
    · rw [if_neg h]
      simp [utf8Encode]

/-! ### Properties of `_truncate_utf8` -/

theorem truncate_utf8_byteLen (text : String) (m : Int) (h : 0 ≤ m) :
    (utf8ByteLength (truncate_utf8 text m) : Int) ≤ m := by
  rw [truncate_utf8]
  by_cases hfit : ((utf8Encode text.data).length : Int) ≤ m
  · rw [if_pos hfit]
    exact hfit
  · rw [if_neg hfit]
    rw [pySliceTo, if_neg (by omega)]
    show ((utf8Encode (utf8DecodeIgnore ((utf8Encode text.data).take m.toNat))).length : Int) ≤ m
    rw [decode_take_encode]
    have := takeBytes_byteLen text.data m.toNat
    omega

theorem truncate_utf8_isPrefixOfData (text : String) (m : Int) :
    ∃ t : List Char, (truncate_utf8 text m).data ++ t = text.data := by
  rw [truncate_utf8]
  by_cases hfit : ((utf8Encode text.data).length : Int) ≤ m
  · rw [if_pos hfit]
    exact ⟨[], List.append_nil _⟩
  · rw [if_neg hfit]
    rw [pySliceTo]
    by_cases hm : m < 0
    · rw [if_pos hm]
      show ∃ t, utf8DecodeIgnore ((utf8Encode text.data).take _) ++ t = text.data
      rw [decode_take_encode]
      exact takeBytes_append _ _
    · rw [if_neg hm]
      show ∃ t, utf8DecodeIgnore ((utf8Encode text.data).take _) ++ t = text.data
      rw [decode_take_encode]
      exact takeBytes_append _ _

theorem truncate_utf8_of_fits (text : String) (m : Int)
    (h : (utf8ByteLength text : Int) ≤ m) : truncate_utf8 text m = text := by
  have h' : ((utf8Encode text.data).length : Int) ≤ m := h
  rw [truncate_utf8, if_pos h']

theorem truncate_utf8_idem_nonneg (text : String) (m : Int) (h : 0 ≤ m) :
    truncate_utf8 (truncate_utf8 text m) m = truncate_utf8 text m :=
  truncate_utf8_of_fits _ _ (truncate_utf8_byteLen text m h)

/-! ## Claim theorems -/

/-- C1 (amended: restricted to `max_bytes ≥ 0`; Python's `int` admits
negative values, for which the byte-length bound fails, see the
counterexample): for every string `text` and every `max_bytes ≥ 0`,
`_truncate_utf8(text, max_bytes)` returns a string (hence valid text)
whose UTF-8 encoding is at most `max_bytes` bytes long and which is a
prefix of `text` (any partial multi-byte sequence at the cut boundary
dropped), and whenever the UTF-8 encoding of `text` is already at most
`max_bytes` bytes, the output equals `text` exactly. -/
theorem c1_truncate_safety (text : String) (max_bytes : Int) (h : 0 ≤ max_bytes) :
    (utf8ByteLength (truncate_utf8 text max_bytes) : Int) ≤ max_bytes ∧
    (∃ t : List Char, (truncate_utf8 text max_bytes).data ++ t = text.data) ∧
    ((utf8ByteLength text : Int) ≤ max_bytes → truncate_utf8 text max_bytes = text) :=
  ⟨truncate_utf8_byteLen text max_bytes h, truncate_utf8_isPrefixOfData text max_bytes,
    truncate_utf8_of_fits text max_bytes⟩

/-- C1 counterexample to the claim as stated ("for every `max_bytes`"):
at `max_bytes = -1` (reachable through `/api/intel`, whose JSON body
may carry a negative `max_bytes`, and `min(-1, 6000) = -1`), Python's
negative slice `encoded[:-1]` keeps all but the last byte, so the
output of `_truncate_utf8("a", -1)` (the empty string, 0 bytes) does
not have UTF-8 length at most `max_bytes`. -/
theorem c1_counterexample :
    ¬ ((utf8ByteLength (truncate_utf8 "a" (-1)) : Int) ≤ -1) := by decide

theorem c1_witness :
    0 ≤ (3 : Int) ∧
    ((utf8ByteLength (truncate_utf8 "héllo" 3) : Int) ≤ 3 ∧
      (∃ t : List Char, (truncate_utf8 "héllo" 3).data ++ t = "héllo".data) ∧
      ((utf8ByteLength "héllo" : Int) ≤ 3 → truncate_utf8 "héllo" 3 = "héllo")) :=
  ⟨by decide, c1_truncate_safety "héllo" 3 (by decide)⟩

/-- C8 (amended: restricted to `n ≥ 0`, see the counterexample for
negative `n`): the byte-budget truncator is idempotent, i.e. for every
string `t` and every `n ≥ 0`,
`truncate(truncate(t, n), n) = truncate(t, n)`. -/
theorem c8_truncate_idem (t : String) (n : Int) (h : 0 ≤ n) :
    truncate_utf8 (truncate_utf8 t n) n = truncate_utf8 t n :=
  truncate_utf8_idem_nonneg t n h

/-- C8 counterexample to the claim as stated ("for every n"): with
`n = -1`, `_truncate_utf8("abc", -1)` is `"ab"` (Python's `encoded[:-1]`
drops one byte per application), and truncating again gives `"a"`, so
the truncator is not idempotent at negative budgets. -/
theorem c8_counterexample :
    truncate_utf8 (truncate_utf8 "abc" (-1)) (-1) ≠ truncate_utf8 "abc" (-1) := by decide

theorem c8_witness :
    0 ≤ (10 : Int) ∧
      truncate_utf8 (truncate_utf8 "hello, world, €€€" 10) 10 =
        truncate_utf8 "hello, world, €€€" 10 :=
  ⟨by decide, c8_truncate_idem "hello, world, €€€" 10 (by decide)⟩

theorem digitRuns_eq_nil {l : List Char} (h : ∀ c ∈ l, isPyDigit c = false) :
    digitRuns l = [] := by
  unfold digitRuns
  induction l with
  | nil => rfl
  | cons ch cs ih =>
    rw [digitRunsAux]
    rw [h ch (List.mem_cons_self ch cs)]
    simp only [Bool.false_eq_true, if_false, if_pos rfl]
    exact ih fun c hc => h c (List.mem_cons_of_mem _ hc)

theorem mergeAux_sublist (l : List SearchResult) :
    ∀ seen, (mergeAux seen l).Sublist l := by
  induction l with
  | nil => intro seen; simp [mergeAux]
  | cons r rs ih =>
    intro seen
    rw [mergeAux]
    split
    · split
      · exact (ih seen).cons r
      · exact (ih _).cons₂ r
    · exact (ih seen).cons r

theorem mergeAux_valid (l : List SearchResult) :
    ∀ seen, ∀ r ∈ mergeAux seen l, validUrl r.url = true := by
  induction l with
  | nil => intro seen r hr; simp [mergeAux] at hr
  | cons x xs ih =>
    intro seen r hr
    rw [mergeAux] at hr
    split at hr
    · split at hr
      · exact ih seen r hr
      · rcases List.mem_cons.mp hr with h | h
        · subst h; assumption
        · exact ih _ r h
    · exact ih seen r hr

theorem mergeAux_domain_not_seen (l : List SearchResult) :
    ∀ seen, ∀ r ∈ mergeAux seen l, urlDomain r.url ∉ seen := by
  induction l with
  | nil => intro seen r hr; simp [mergeAux] at hr
  | cons x xs ih =>
    intro seen r hr
    rw [mergeAux] at hr
    split at hr
    · split at hr
      · exact ih seen r hr
      · rcases List.mem_cons.mp hr with h | h
        · subst h; assumption
        · intro hmem
          exact ih _ r h (List.mem_cons_of_mem _ hmem)
    · exact ih seen r hr

theorem mergeAux_nodupDomains (l : List SearchResult) :
    ∀ seen, ((mergeAux seen l).map fun r => urlDomain r.url).Nodup := by
  induction l with
  | nil => intro seen; simp [mergeAux]
  | cons x xs ih =>
    intro seen
    rw [mergeAux]
    split
    · split
      · exact ih seen
      · rw [List.map_cons, List.nodup_cons]
        refine ⟨fun hmem => ?_, ih _⟩
        obtain ⟨y, hy, hyd⟩ := List.mem_map.mp hmem
        exact mergeAux_domain_not_seen xs _ y hy (hyd ▸ List.mem_cons_self _ _)
    · exact ih seen

theorem mergeAux_append (xs : List SearchResult) :
    ∀ (seen : List String) (ys : List SearchResult),
      mergeAux seen (xs ++ ys) = mergeAux seen xs ++ mergeAux (collectDomains seen xs) ys := by
  induction xs with
  | nil => intro seen ys; simp [mergeAux, collectDomains]
  | cons x xs ih =>
    intro seen ys
    rw [List.cons_append, mergeAux, mergeAux, collectDomains]
    split
    · split
      · exact ih seen ys
      · rw [List.cons_append, ih _ ys]
    · exact ih seen ys

theorem subset_collectDomains (l : List SearchResult) :
    ∀ seen, seen ⊆ collectDomains seen l := by
  induction l with
  | nil => intro seen; rw [collectDomains]; exact List.Subset.refl seen
  | cons x xs ih =>
    intro seen
    rw [collectDomains]
    split
    · split
      · exact ih seen
      · exact fun d hd => ih _ (List.mem_cons_of_mem _ hd)
    · exact ih seen

theorem mem_collectDomains (l : List SearchResult) :
    ∀ seen, ∀ r ∈ l, validUrl r.url = true → urlDomain r.url ∈ collectDomains seen l := by
  induction l with
  | nil => intro seen r hr; simp at hr
  | cons x xs ih =>
    intro seen r hr hv
    rw [collectDomains]
    rcases List.mem_cons.mp hr with h | h
    · subst h
      rw [if_pos hv]
      split
      · exact subset_collectDomains xs seen (by assumption)
      · exact subset_collectDomains xs _ (List.mem_cons_self _ _)
    · split
      · split
        · exact ih seen r h hv
        · exact ih _ r h hv
      · exact ih seen r h hv

/-- C3: the merge in `/ask` and `/api/intel` search mode (identical
loops over `ddg_results + news_results`) drops every entry whose URL
does not start with the recognized scheme test, keeps at most one
entry per network-host key, preserves first-seen order (the merged
list is a sublist of `a ++ b`), splits as the merge of `a` alone
followed by the `b`-entries with fresh hosts, and never keeps a
`b`-entry whose host collides with a valid `a`-entry — the `a`
occurrence, at its `a` position, is the one kept. -/
theorem c3_merge_dedup (a b : List SearchResult) :
    (mergeResults a b).Sublist (a ++ b) ∧
    (∀ r ∈ mergeResults a b, validUrl r.url = true) ∧
    ((mergeResults a b).map fun r => urlDomain r.url).Nodup ∧
    mergeResults a b = mergeResults a [] ++ mergeAux (collectDomains [] a) b ∧
    (∀ x ∈ a, validUrl x.url = true →
      ∀ y ∈ mergeAux (collectDomains [] a) b, urlDomain y.url ≠ urlDomain x.url) := by
  refine ⟨mergeAux_sublist _ _, mergeAux_valid _ _, mergeAux_nodupDomains _ _, ?_, ?_⟩
  · rw [mergeResults, mergeResults, mergeAux_append, List.append_nil]
  · intro x hx hv y hy heq
    exact mergeAux_domain_not_seen b _ y hy (heq ▸ mem_collectDomains a [] x hx hv)

theorem c3_witness :
    validUrl "http://a.com/1" = true ∧
    (mergeResults
        [⟨"t0", "", "s0", "", ""⟩, ⟨"t1", "http://a.com/1", "s1", "", ""⟩,
          ⟨"t2", "http://a.com/2", "s2", "", ""⟩, ⟨"t3", "http://b.com/3", "s3", "", ""⟩]
        [⟨"n1", "http://a.com/news", "", "d1", ""⟩, ⟨"n2", "http://c.com/n", "", "d2", ""⟩] =
      [⟨"t1", "http://a.com/1", "s1", "", ""⟩, ⟨"t3", "http://b.com/3", "s3", "", ""⟩,
        ⟨"n2", "http://c.com/n", "", "d2", ""⟩]) ∧
    urlDomain "http://c.com/n" ≠ urlDomain "http://a.com/1" :=
  ⟨by decide, by decide,
    (c3_merge_dedup
        [⟨"t0", "", "s0", "", ""⟩, ⟨"t1", "http://a.com/1", "s1", "", ""⟩,
          ⟨"t2", "http://a.com/2", "s2", "", ""⟩, ⟨"t3", "http://b.com/3", "s3", "", ""⟩]
        [⟨"n1", "http://a.com/news", "", "d1", ""⟩,
          ⟨"n2", "http://c.com/n", "", "d2", ""⟩]).2.2.2.2
      ⟨"t1", "http://a.com/1", "s1", "", ""⟩ (by decide) (by decide)
      ⟨"n2", "http://c.com/n", "", "d2", ""⟩ (by decide)⟩

/-- C4: for every candidate-list length `n` and every LLM reply, the
parsed Selection (shared parsing code of `/ask` and `/api/intel`
search mode) contains only indices `i < n` — integer tokens outside
the range are dropped, non-numeric tokens never produce an index — and
its length never exceeds 5. -/
theorem c4_selection_bounds (reply : String) (n : Nat) :
    (parsePicked reply n).length ≤ 5 ∧
      (parsePicked reply n).all (fun i => decide (i < n)) = true := by
  constructor
  · rw [parsePicked, List.length_take]
    omega
  · rw [List.all_eq_true]
    intro i hi
    have hi2 := List.take_subset 5 _ hi
    split at hi2
    · simp only [List.mem_range] at hi2
      exact decide_eq_true (Nat.lt_of_lt_of_le hi2 (Nat.min_le_right 4 n))
    · rw [List.mem_filter] at hi2
      simpa using hi2.2

/-- C5: for every non-empty candidate list, an LLM reply containing no
decimal-digit character (Unicode category Nd, the set matched by
Python's `\d` and parsed by `int()` — hence no parseable integers)
yields the fallback Selection `[0, 1, ..., min(4, n) - 1]`, i.e. the
first `min(4, n)` indices in order; and malformed selector output
never surfaces an error: whatever the reply, `/ask` and `/api/intel`
search mode still produce an `ok` payload when the merge is
non-empty. -/
theorem c5_selection_fallback :
    (∀ (reply : String) (n : Nat), 0 < n → (∀ c ∈ reply.data, isPyDigit c = false) →
      parsePicked reply n = List.range (min 4 n)) ∧
    (∀ (q : String) (o : AskOracles), askMerged o ≠ [] →
      ∃ a s cnt, ask q o = AskResponse.ok a s cnt) ∧
    (∀ (body : IntelBody) (o : IntelOracles),
      intelEffQuery body ≠ "" → intelEffMode body ≠ "price" → intelEffMode body ≠ "browse" →
      intelMerged o ≠ [] → ∃ f s t, intel body o = IntelResponse.ok f s t) := by
  refine ⟨?_, ?_, ?_⟩
  · intro reply n _ hnodigit
    rw [parsePicked, digitRuns_eq_nil hnodigit]
    simp only [List.map_nil, List.filter_nil, if_pos rfl]
    exact List.take_of_length_le (by simp)
  · intro q o h
    rw [ask, if_neg h]
    exact ⟨_, _, _, rfl⟩
  · intro body o hq hpr hbr hne
    rw [intel, if_neg (fun h => hq h.1), if_neg hpr, if_neg hbr, intelSearchMode, if_neg hne]
    exact ⟨_, _, _, rfl⟩

theorem isPrefixOf_extend : ∀ p q l : List Char,
    p.isPrefixOf q = true → p.isPrefixOf (q ++ l) = true := by
  intro p
  induction p with
  | nil => intro q l _; cases h : q ++ l <;> rfl
  | cons a as ih =>
    intro q l h
    cases q with
    | nil => simp [List.isPrefixOf] at h
    | cons b bs =>
      simp only [List.isPrefixOf, Bool.and_eq_true] at h
      simp only [List.cons_append, List.isPrefixOf, Bool.and_eq_true]
      exact ⟨h.1, ih bs l h.2⟩

theorem errorMarker_startsWith (u e : String) :
    strStartsWith ("Error scraping " ++ u ++ ": " ++ e) "Error" = true := by
  have h0 : ("Error" : String).data.isPrefixOf ("Error scraping " : String).data = true := by
    decide
  simp only [strStartsWith, String.data_append]
  exact isPrefixOf_extend _ _ _ (isPrefixOf_extend _ _ _ (isPrefixOf_extend _ _ _ h0))

/-- C6: the parallel scrape batch returns exactly one outcome per
input URL, in input order (`scrapeAll` maps position `i` to the
outcome of `urls[i]`); a fault of the fetch of any single URL is
captured inside `_scrape_url` as a per-item `"Error scraping ..."`
marker (so the batch never raises because one element failed), and
each position's outcome depends only on the fetch behaviour at its own
URL, so all other URLs' outcomes are returned unchanged. -/
theorem c6_scrape_isolation :
    (∀ (fetch : String → Except String (List String × List String)) (urls : List String),
      (scrapeAll fetch urls).length = urls.length) ∧
    (∀ (fetch : String → Except String (List String × List String)) (urls : List String)
        (i : Nat), i < urls.length →
      (scrapeAll fetch urls).getD i "" = scrape_url fetch (urls.getD i "")) ∧
    (∀ (fetch : String → Except String (List String × List String)) (urls : List String)
        (i : Nat) (e : String), i < urls.length →
      fetch (urls.getD i "") = Except.error e →
      (scrapeAll fetch urls).getD i "" = "Error scraping " ++ urls.getD i "" ++ ": " ++ e ∧
        strStartsWith ((scrapeAll fetch urls).getD i "") "Error" = true) ∧
    (∀ (fetch1 fetch2 : String → Except String (List String × List String))
        (urls : List String) (i : Nat), i < urls.length →
      fetch1 (urls.getD i "") = fetch2 (urls.getD i "") →
      (scrapeAll fetch1 urls).getD i "" = (scrapeAll fetch2 urls).getD i "") := by
  have hgetD : ∀ (fetch : String → Except String (List String × List String))
      (urls : List String) (i : Nat), i < urls.length →
      (scrapeAll fetch urls).getD i "" = scrape_url fetch (urls.getD i "") := by
    intro fetch urls i h
    have h2 : i < (urls.map (scrape_url fetch)).length := by
      rw [List.length_map]; exact h
    rw [scrapeAll, List.getD_eq_getElem _ _ h2, List.getD_eq_getElem _ _ h, List.getElem_map]
  refine ⟨fun fetch urls => by simp [scrapeAll], hgetD, ?_, ?_⟩
  · intro fetch urls i e h hfetch
    have h1 := hgetD fetch urls i h
    rw [h1, scrape_url, hfetch]
    exact ⟨rfl, errorMarker_startsWith _ _⟩
  · intro fetch1 fetch2 urls i h hagree
    rw [hgetD fetch1 urls i h, hgetD fetch2 urls i h, scrape_url, scrape_url, hagree]

theorem c6_witness :
    (scrapeAll
        (fun u => if u = "http://a.com/x" then Except.error "boom"
          else Except.ok (["first paragraph text here", "second paragraph"], []))
        ["http://a.com/x", "http://b.com/y"]).length = 2 ∧
    (scrapeAll
        (fun u => if u = "http://a.com/x" then Except.error "boom"
          else Except.ok (["first paragraph text here", "second paragraph"], []))
        ["http://a.com/x", "http://b.com/y"]).getD 0 "" =
      "Error scraping " ++ "http://a.com/x" ++ ": " ++ "boom" ∧
    (scrapeAll
        (fun u => if u = "http://a.com/x" then Except.error "boom"
          else Except.ok (["first paragraph text here", "second paragraph"], []))
        ["http://a.com/x", "http://b.com/y"]).getD 1 "" =
      scrape_url
        (fun u => if u = "http://a.com/x" then Except.error "boom"
          else Except.ok (["first paragraph text here", "second paragraph"], []))
        "http://b.com/y" :=
  ⟨(c6_scrape_isolation.1 _ ["http://a.com/x", "http://b.com/y"]).trans rfl,
    ((c6_scrape_isolation.2.2.1 _ ["http://a.com/x", "http://b.com/y"] 0 "boom" (by decide)
        rfl).1),
    (c6_scrape_isolation.2.1 _ ["http://a.com/x", "http://b.com/y"] 1 (by decide)).trans rfl⟩

theorem str_empty_append (s : String) : "" ++ s = s := by
  cases s
  rfl

theorem askScraped_eq_spec (items : List (String × String × PageOutcome)) :
    askScraped items = askScrapedSpec items := by
  induction items with
  | nil => rfl
  | cons x rest ih =>
    rcases x with ⟨title, url, out⟩
    cases out with
    | text t =>
      by_cases h : textUsable t = true
      · simp only [askScraped, askScrapedSpec, List.filter_cons, pageUsable, h, if_pos,
          blocksConcat, ih]
      · rw [askScraped, if_neg (by simpa using h), str_empty_append, ih, askScrapedSpec,
          askScrapedSpec, List.filter_cons]
        have hp : pageUsable (title, url, PageOutcome.text t).2.2 = false := by
          simpa [pageUsable] using (Bool.eq_false_iff.mpr (by simpa using h))
        rw [hp]
        simp
    | raised e =>
      rw [askScraped, ih, askScrapedSpec, askScrapedSpec, List.filter_cons]
      have hp : pageUsable (title, url, PageOutcome.raised e).2.2 = false := rfl
      rw [hp]
      simp

theorem intelScraped_eq_spec (items : List (String × String × PageOutcome)) :
    intelScraped items = intelScrapedSpec items := by
  induction items with
  | nil => rfl
  | cons x rest ih =>
    rcases x with ⟨title, url, out⟩
    cases out with
    | text t =>
      by_cases h : textUsable t = true
      · simp only [intelScraped, intelScrapedSpec, List.filter_cons, pageUsable, h, if_pos,
          blocksConcat, ih]
      · rw [intelScraped, if_neg (by simpa using h), str_empty_append, ih, intelScrapedSpec,
          intelScrapedSpec, List.filter_cons]
        have hp : pageUsable (title, url, PageOutcome.text t).2.2 = false := by
          simpa [pageUsable] using (Bool.eq_false_iff.mpr (by simpa using h))
        rw [hp]
        simp
    | raised e =>
      rw [intelScraped, ih, intelScrapedSpec, intelScrapedSpec, List.filter_cons]
      have hp : pageUsable (title, url, PageOutcome.raised e).2.2 = false := rfl
      rw [hp]
      simp

/-- C7: the assembled context of both endpoints has the fixed
composition: optional live-price line (resp. the question header)
first, then the snippet digest of the first 10 merged candidates
(independent of any scrape outcome), then — only when at least one
outcome is usable — the block section equal to one labeled
title/URL block per usable outcome (not a failure marker, longer than
50 chars), in order, with the scraped text truncated to 3000
characters on `/ask` and 2500 on `/api/intel`; failed scrapes
contribute no block. -/
theorem c7_context_order :
    (∀ (priceInfo : String) (merged : List SearchResult)
        (items : List (String × String × PageOutcome)),
      askContext priceInfo merged items =
        if askScrapedSpec items = "" then
          priceInfo ++ "Search results summary:\n" ++ digest (merged.take 10)
        else
          priceInfo ++ "Search results summary:\n" ++ digest (merged.take 10) ++
            "\n\nScraped page content:" ++ askScrapedSpec items) ∧
    (∀ (query : String) (merged : List SearchResult)
        (items : List (String × String × PageOutcome)),
      intelContext query merged items =
        if intelScrapedSpec items = "" then
          "Question: " ++ query ++ "\n\nSearch headlines:\n" ++ digest (merged.take 10)
        else
          "Question: " ++ query ++ "\n\nSearch headlines:\n" ++ digest (merged.take 10) ++
            "\n\nScraped pages:" ++ intelScrapedSpec items) := by
  constructor
  · intro priceInfo merged items
    simp only [askContext, askScraped_eq_spec items]
  · intro query merged items
    simp only [intelContext, intelScraped_eq_spec items]

/-- C2 (amended: restricted to nonnegative requested `max_bytes`, to
the search and browse modes, and — for the search branch — to requests
that found at least one merged candidate; see the counterexample: the
price mode never truncates its facts string, and the search-mode
"No results found" reply and negative budgets are likewise exempt from
the bound in the code): the effective budget is
`min(requested max_bytes, 6000)` with default 4000 when absent, and
every successful (`ok`) response of the search or browse pipeline has
a facts string of UTF-8 length at most this budget. -/
theorem c2_budget_bound (body : IntelBody) (o : IntelOracles)
    (hmb : 0 ≤ body.max_bytes.getD 4000)
    (hmode : intelEffMode body ≠ "price")
    (hnr : intelEffMode body = "browse" ∨ intelMerged o ≠ [])
    (f : String) (s : List String) (t : Nat)
    (hok : intel body o = IntelResponse.ok f s t) :
    (utf8ByteLength f : Int) ≤ intelMaxBytes body ∧
      intelMaxBytes body = min (body.max_bytes.getD 4000) 6000 := by
  have h0 : (0 : Int) ≤ intelMaxBytes body := by
    rw [intelMaxBytes]
    omega
  refine ⟨?_, rfl⟩
  rw [intel] at hok
  by_cases h1 : intelEffQuery body = "" ∧ intelEffMode body ≠ "price"
  · rw [if_pos h1] at hok
    exact absurd hok (by simp)
  · rw [if_neg h1, if_neg hmode] at hok
    by_cases h3 : intelEffMode body = "browse"
    · rw [if_pos h3, intelBrowseMode] at hok
      by_cases h4 : body.url.getD "" = ""
      · rw [if_pos h4] at hok
        exact absurd hok (by simp)
      · rw [if_neg h4] at hok
        rcases hsc : o.scrape (body.url.getD "") with text | e <;> rw [hsc] at hok <;>
          simp only [] at hok
        · by_cases h5 : text = "" ∨ strStartsWith text "Error" = true
          · rw [if_pos h5] at hok
            exact absurd hok (by simp)
          · rw [if_neg h5] at hok
            rw [IntelResponse.ok.injEq] at hok
            rw [← hok.1]
            exact truncate_utf8_byteLen _ _ h0
        · exact absurd hok (by simp)
    · rw [if_neg h3, intelSearchMode] at hok
      rcases hnr with hbr | hne
      · exact absurd hbr h3
      · rw [if_neg hne] at hok
        rw [IntelResponse.ok.injEq] at hok
        rw [← hok.1]
        exact truncate_utf8_byteLen _ _ h0

/-- C9: the pipelines detect scrape failure solely by the returned
text starting with `"Error"` (plus the length-50 threshold), so a page
whose genuinely extracted content itself begins with `"Error"` is
classified as failed even though the fetch succeeded: the inclusion
test is false, both context-assembly loops skip the page (it
contributes nothing to the assembled context), and `/api/intel` browse
mode returns the `scrape failed` error response for it. -/
theorem c9_error_sentinel :
    (∀ t : String, strStartsWith t "Error" = true → textUsable t = false) ∧
    (∀ (title url t : String) (rest : List (String × String × PageOutcome)),
      strStartsWith t "Error" = true →
      askScraped ((title, url, PageOutcome.text t) :: rest) = askScraped rest ∧
        intelScraped ((title, url, PageOutcome.text t) :: rest) = intelScraped rest) ∧
    (∀ (body : IntelBody) (o : IntelOracles) (text : String),
      intelEffQuery body ≠ "" → intelEffMode body = "browse" → body.url.getD "" ≠ "" →
      o.scrape (body.url.getD "") = PageOutcome.text text →
      strStartsWith text "Error" = true →
      intel body o = IntelResponse.err ("scrape failed: " ++ strTake text 200) 200) := by
  have husable : ∀ t : String, strStartsWith t "Error" = true → textUsable t = false := by
    intro t h
    rw [textUsable, h]
    rfl
  refine ⟨husable, ?_, ?_⟩
  · intro title url t rest h
    constructor
    · rw [askScraped, husable t h, if_neg (by simp), str_empty_append]
    · rw [intelScraped, husable t h, if_neg (by simp), str_empty_append]
  · intro body o text hq hmode hurl hsc hstarts
    rw [intel, if_neg (fun h => hq h.1), if_neg (by rw [hmode]; decide), if_pos hmode,
      intelBrowseMode, if_neg hurl, hsc]
    simp only []
    rw [if_pos (Or.inr hstarts)]

theorem c9_witness :
    strStartsWith "Error codes in HTTP are status indicators returned by a web server."
        "Error" = true ∧
    50 < ("Error codes in HTTP are status indicators returned by a web server." : String).length ∧
    textUsable "Error codes in HTTP are status indicators returned by a web server." = false ∧
    intel ⟨some "error codes", some "browse", some "http://x.com/a", none⟩
        ⟨PriceResult.notFound, [], [], fun _ => "",
          fun _ => PageOutcome.text
            "Error codes in HTTP are status indicators returned by a web server.",
          fun _ => "facts", 7⟩ =
      IntelResponse.err
        ("scrape failed: " ++
          strTake "Error codes in HTTP are status indicators returned by a web server." 200)
        200 :=
  ⟨by decide, by decide,
    c9_error_sentinel.1 "Error codes in HTTP are status indicators returned by a web server."
      (by decide),
    c9_error_sentinel.2.2 ⟨some "error codes", some "browse", some "http://x.com/a", none⟩
      ⟨PriceResult.notFound, [], [], fun _ => "",
        fun _ => PageOutcome.text
          "Error codes in HTTP are status indicators returned by a web server.",
        fun _ => "facts", 7⟩
      "Error codes in HTTP are status indicators returned by a web server."
      (by decide) (by decide) (by decide) rfl (by decide)⟩

/-- C10: reported sources reflect selection attempts, not scrape
successes.  In `/ask`, every successful response carries
`sources = scrape_urls` (the full list of selected URLs, one per
picked index, in order) and `scraped_count = len(scrape_urls)`; the
URL list is independent of the scrape oracle, so pages whose scrape
failed are counted.  In `/api/intel` search mode, the source list is
the host of every selected URL (duplicates possible when the selector
repeats an index), with `"coingecko.com"` inserted at position 0
exactly when a price prefix was added; it is likewise independent of
the scrape oracle. -/
theorem c10_sources_reflect_selection :
    (∀ (q : String) (o : AskOracles), askMerged o ≠ [] →
      ask q o =
        AskResponse.ok
          (o.answer (askAnswerPrompt q
            (askContext (askPriceInfo (pyLower q) o.price) (askMerged o) (askItems q o))))
          (askScrapeUrls q o) (askScrapeUrls q o).length ∧
      askScrapeUrls q o = (askPicked q o).map fun i => ((askMerged o).getD i blankResult).url) ∧
    (∀ (q : String) (o : AskOracles) (s1 s2 : String → PageOutcome),
      askScrapeUrls q { o with scrape := s1 } = askScrapeUrls q { o with scrape := s2 }) ∧
    (∀ (body : IntelBody) (o : IntelOracles),
      intelEffQuery body ≠ "" → intelEffMode body ≠ "price" → intelEffMode body ≠ "browse" →
      intelMerged o ≠ [] →
      ∃ fct, intel body o =
        IntelResponse.ok fct
          (if intelPriceLine (pyLower (intelEffQuery body)) o.price ≠ "" then
            "coingecko.com" :: (intelScrapeUrls (intelEffQuery body) o).map urlDomain
          else (intelScrapeUrls (intelEffQuery body) o).map urlDomain)
          o.now) ∧
    (∀ (q : String) (o : IntelOracles) (s1 s2 : String → PageOutcome),
      intelScrapeUrls q { o with scrape := s1 } = intelScrapeUrls q { o with scrape := s2 }) := by
  refine ⟨?_, fun q o s1 s2 => rfl, ?_, fun q o s1 s2 => rfl⟩
  · intro q o h
    rw [ask, if_neg h]
    exact ⟨rfl, rfl⟩
  · intro body o hq hpr hbr hne
    rw [intel, if_neg (fun h => hq h.1), if_neg hpr, if_neg hbr, intelSearchMode, if_neg hne]
    exact ⟨_, rfl⟩

theorem c10_witness :
    ask "q"
        ⟨PriceResult.notFound,
          [⟨"t1", "http://a.com/1", "s1", "", ""⟩, ⟨"t2", "http://b.com/2", "s2", "", ""⟩], [],
          fun _ => "0,1",
          fun u => if u = "http://a.com/1" then PageOutcome.raised "cancelled"
            else PageOutcome.text "Error scraping http://b.com/2: boom",
          fun _ => "ans"⟩ =
      AskResponse.ok "ans" ["http://a.com/1", "http://b.com/2"] 2 ∧
    (∃ fct, intel ⟨some "btc news", none, none, none⟩
        ⟨PriceResult.ok "97,000.00" "+1.23",
          [⟨"t1", "http://a.com/1", "s1", "", ""⟩, ⟨"t2", "http://b.com/2", "s2", "", ""⟩], [],
          fun _ => "1,1", fun _ => PageOutcome.text "Error whatever", fun _ => "facts", 7⟩ =
      IntelResponse.ok fct ["coingecko.com", "b.com", "b.com"] 7) :=
  ⟨((c10_sources_reflect_selection.1 "q"
      ⟨PriceResult.notFound,
        [⟨"t1", "http://a.com/1", "s1", "", ""⟩, ⟨"t2", "http://b.com/2", "s2", "", ""⟩], [],
        fun _ => "0,1",
        fun u => if u = "http://a.com/1" then PageOutcome.raised "cancelled"
          else PageOutcome.text "Error scraping http://b.com/2: boom",
        fun _ => "ans"⟩ (by decide)).1).trans (by decide),
    Exists.elim
      (c10_sources_reflect_selection.2.2.1 ⟨some "btc news", none, none, none⟩
        ⟨PriceResult.ok "97,000.00" "+1.23",
          [⟨"t1", "http://a.com/1", "s1", "", ""⟩, ⟨"t2", "http://b.com/2", "s2", "", ""⟩], [],
          fun _ => "1,1", fun _ => PageOutcome.text "Error whatever", fun _ => "facts", 7⟩
        (by decide) (by decide) (by decide) (by decide))
      fun fct h => ⟨fct, h.trans rfl⟩⟩

/-- C2 counterexample to the claim as stated: a price-mode request
with `max_bytes = 1` succeeds with a 43-byte facts string — the price
branch (server.py lines 408-421) never applies `_truncate_utf8`, so
the `facts <= max_bytes` bound fails in price mode. -/
theorem c2_counterexample :
    intel ⟨some "btc", some "price", none, some 1⟩
        ⟨PriceResult.ok "97,000.00" "+1.23", [], [], fun _ => "", fun _ => PageOutcome.text "",
          fun _ => "", 7⟩ =
      IntelResponse.ok "bitcoin $97,000.00 (+1.23% 24h) (coingecko)" ["coingecko.com"] 7 ∧
    ¬ ((utf8ByteLength "bitcoin $97,000.00 (+1.23% 24h) (coingecko)" : Int) ≤
        intelMaxBytes ⟨some "btc", some "price", none, some 1⟩) := by
  constructor
  · decide
  · decide

theorem c2_witness :
    (utf8ByteLength "hello" : Int) ≤
      intelMaxBytes ⟨some "q", some "browse", some "http://x.com/a", some 5⟩ ∧
    intelMaxBytes ⟨some "q", some "browse", some "http://x.com/a", some 5⟩ =
      min ((some (5 : Int)).getD 4000) 6000 :=
  c2_budget_bound ⟨some "q", some "browse", some "http://x.com/a", some 5⟩
    ⟨PriceResult.notFound, [], [],
      fun _ => "", fun _ => PageOutcome.text "Lots of genuine page content, long enough to count as a usable scrape.",
      fun _ => "hello world", 7⟩
    (by decide) (by decide) (Or.inl (by decide)) "hello" ["x.com"] 7 (by decide)

theorem c5_witness :
    (0 < 3 ∧ (∀ c ∈ ("no numbers here!" : String).data, isPyDigit c = false) ∧
      parsePicked "no numbers here!" 3 = List.range (min 4 3)) ∧
    (askMerged ⟨PriceResult.notFound, [⟨"t", "http://a.com/x", "s", "", "a.com"⟩], [],
        fun _ => "garbage", fun _ => PageOutcome.text "", fun _ => "ans"⟩ ≠ [] ∧
      ∃ a s cnt, ask "q" ⟨PriceResult.notFound, [⟨"t", "http://a.com/x", "s", "", "a.com"⟩], [],
        fun _ => "garbage", fun _ => PageOutcome.text "", fun _ => "ans"⟩ =
        AskResponse.ok a s cnt) ∧
    (∃ f s t, intel ⟨some "q2", none, none, none⟩
        ⟨PriceResult.notFound, [⟨"t", "http://a.com/x", "s", "", "a.com"⟩], [],
          fun _ => "garbage", fun _ => PageOutcome.text "", fun _ => "facts", 7⟩ =
        IntelResponse.ok f s t) :=
  ⟨⟨by decide, by decide, c5_selection_fallback.1 "no numbers here!" 3 (by decide) (by decide)⟩,
    ⟨by decide, c5_selection_fallback.2.1 "q" _ (by decide)⟩,
    c5_selection_fallback.2.2 ⟨some "q2", none, none, none⟩
      ⟨PriceResult.notFound, [⟨"t", "http://a.com/x", "s", "", "a.com"⟩], [],
        fun _ => "garbage", fun _ => PageOutcome.text "", fun _ => "facts", 7⟩
      (by decide) (by decide) (by decide) (by decide)⟩

end Pico
